import Mathlib

/-!
# COACH Self-Service Portal — verification of the storage-key core

A shallow embedding of the key-derivation, presign-issuance and
existence-probe logic of the COACH portal backend (`src/api/put.ts`,
`src/api/upload.ts`, `src/api/s3.ts`, `src/utils/s3.ts`, the
registration-status and process routes).  JavaScript strings are embedded
as `List Char`; each single-character-class regex replace becomes a map or
a run-replacing recursion over the character list; HTTP handlers become
total functions from their parsed inputs (method, env, body fields,
backend responses) to a response record.
-/

/-- A JavaScript string, embedded as its list of characters. -/
abbrev Str := List Char

/-- Characters the JS `trim()` of this codebase removes: ASCII whitespace,
NBSP and the BOM. -/
def isWs (c : Char) : Bool :=
  c.toNat = 32 || c.toNat = 9 || c.toNat = 10 || c.toNat = 11 ||
  c.toNat = 12 || c.toNat = 13 || c.toNat = 160 || c.toNat = 65279

/-- Drop the longest suffix of characters satisfying `p`. -/
def dropEndWhile (p : Char → Bool) : Str → Str
  | [] => []
  | c :: rest =>
    let r := dropEndWhile p rest
    if r = [] && p c then [] else c :: r

/-- JS `String.prototype.trim`. -/
def jsTrim (l : Str) : Str := dropEndWhile isWs (l.dropWhile isWs)

/-- ASCII lower-casing, the effect of JS `toLowerCase()` on the
characters this codebase feeds it. -/
def toLowerCh (c : Char) : Char :=
  if 65 ≤ c.toNat && c.toNat ≤ 90 then Char.ofNat (c.toNat + 32) else c

/-- Membership in the character class `[a-zA-Z0-9._-]` used by
`sanitizeEmail` in `src/api/put.ts` and `src/api/upload.ts`. -/
def upperSafe (c : Char) : Bool :=
  (65 ≤ c.toNat && c.toNat ≤ 90) || (97 ≤ c.toNat && c.toNat ≤ 122) ||
  (48 ≤ c.toNat && c.toNat ≤ 57) || c.toNat = 46 || c.toNat = 95 || c.toNat = 45

/-- Membership in the character class `[a-z0-9._-]` used by `safeId` in
`src/api/upload.ts` and the second registration-status variant. -/
def lowerSafe (c : Char) : Bool :=
  (97 ≤ c.toNat && c.toNat ≤ 122) || (48 ≤ c.toNat && c.toNat ≤ 57) ||
  c.toNat = 46 || c.toNat = 95 || c.toNat = 45

/-- The alphabet the spec claims for resolver output: lower-case
alphanumerics, `.`, `_`, `-` and `/`. -/
def specKeySafe (c : Char) : Bool := lowerSafe c || c.toNat = 47

/-- The alphabet the code actually guarantees for `sanitizeEmail`-based
keys: `[a-zA-Z0-9._-]` plus the path separator. -/
def keySafeUpper (c : Char) : Bool := upperSafe c || c.toNat = 47

/-- First replace of `sanitizeEmail`: `e.replace(/@/g, '_at_')`. -/
def atRepl (l : Str) : Str :=
  l.flatMap fun c => if c == '@' then ['_', 'a', 't', '_'] else [c]

/-- Second replace of `sanitizeEmail`: characters outside
`[a-zA-Z0-9._-]` become `_`. -/
def sanCh (c : Char) : Char := if upperSafe c then c else '_'

/-- The `sanitizeEmail` helper of `src/api/put.ts` / `src/api/upload.ts`:
`e.replace(/@/g, '_at_').replace(/[^a-zA-Z0-9._-]/g, '_')`. -/
def sanitizeEmail (l : Str) : Str := (atRepl l).map sanCh

/-- JS digit class `[0-9]`. -/
def digitCh (c : Char) : Bool := 48 ≤ c.toNat && c.toNat ≤ 57

/-- The character set `encodeURIComponent` leaves unescaped:
`[A-Za-z0-9-_.!~*'()]`. -/
def uriUnreserved (c : Char) : Bool :=
  (65 ≤ c.toNat && c.toNat ≤ 90) || (97 ≤ c.toNat && c.toNat ≤ 122) ||
  (48 ≤ c.toNat && c.toNat ≤ 57) || c.toNat = 45 || c.toNat = 95 ||
  c.toNat = 46 || c.toNat = 33 || c.toNat = 126 || c.toNat = 42 ||
  c.toNat = 39 || c.toNat = 40 || c.toNat = 41

/-- Upper-case hexadecimal digit for a value below 16. -/
def hexDigit (n : Nat) : Char :=
  if n < 10 then Char.ofNat (48 + n) else Char.ofNat (55 + n)

/-- UTF-8 bytes of a Unicode scalar value. -/
def utf8Bytes (v : Nat) : List Nat :=
  if v < 128 then [v]
  else if v < 2048 then [192 + v / 64, 128 + v % 64]
  else if v < 65536 then [224 + v / 4096, 128 + (v / 64) % 64, 128 + v % 64]
  else [240 + v / 262144, 128 + (v / 4096) % 64, 128 + (v / 64) % 64, 128 + v % 64]

/-- Percent-encoding of one byte. -/
def pctByte (b : Nat) : Str := ['%', hexDigit (b / 16), hexDigit (b % 16)]

/-- JS `encodeURIComponent`, used by `regKey` in the registration-status
route and by the `/put` and `/upload` variants to build key segments. -/
def encodeURIComponent (l : Str) : Str :=
  l.flatMap fun c =>
    if uriUnreserved c then [c] else (utf8Bytes c.toNat).flatMap pctByte

/-- JS string-valued `||`: first operand when present and non-empty
(truthy), otherwise the second, otherwise the empty string. -/
def jsOrStr (a b : Option Str) : Str :=
  if a.getD [] = [] then b.getD [] else a.getD []

/-- Result record of an HTTP handler in this codebase: a status code, the
key echoed back on success, and the storage keys the handler wrote. -/
structure ApiResult where
  status : Nat
  key : Option Str := none
  writes : List Str := []
deriving Repr, DecidableEq

/-- Body of a `/put` request, after JSON parsing: the fields the handlers
of this repository read. -/
structure PutBody where
  kind : Option Str := none
  contactEmail : Option Str := none
  teamEmail : Option Str := none
  email : Option Str := none
deriving Repr, DecidableEq

/-- Key built by the active `/api/put` handler (`src/api/put.ts`,
line 101): `coach/${sanitizeEmail(email)}/${kind}.json`. -/
def putKeyV1 (kind email : Str) : Str :=
  "coach/".data ++ sanitizeEmail email ++ '/' :: (kind ++ ".json".data)

/-- The active `/api/put` handler (`src/api/put.ts`, lines 84-120):
POST-only, requires `COACH_BUCKET`, reads `kind` and
`contactEmail || teamEmail` (the plain `email` field is never read),
writes the body under `putKeyV1`. -/
def putHandlerV1 (method : Str) (bucket : Option Str) (body : PutBody) : ApiResult :=
  if method ≠ "POST".data then { status := 405 }
  else match bucket with
  | none => { status := 500 }
  | some _ =>
    let kind := jsTrim (jsOrStr body.kind none)
    let email := jsTrim (jsOrStr body.contactEmail body.teamEmail)
    if kind = [] then { status := 400 }
    else if email = [] then { status := 400 }
    else
      let key := putKeyV1 kind email
      { status := 200, key := some key, writes := [key] }

/-- Outcome of a `HeadObject` / `PutObject` call against the storage
backend, as the handlers observe it. -/
inductive HeadResult where
  | ok : HeadResult
  | err : Nat → HeadResult
deriving Repr, DecidableEq

/-- Modelled from the spec: the external object store is an opaque,
already-durable collaborator; we model its visible state as the list of
keys currently present, and `HeadObject` as a membership probe that
reports 404 for an absent key. -/
def headOfStore (store : List Str) (k : Str) : HeadResult :=
  if k ∈ store then .ok else .err 404

/-- Response of the `/api/s3` existence probe. -/
structure ApiS3Resp where
  status : Nat
  ex : Option Bool := none
deriving Repr, DecidableEq

/-- The `/api/s3` existence-probe handler (`src/api/s3.ts`, lines 9-26):
POST-only, requires a truthy `key` then `COACH_BUCKET`; `HeadObject`
success means `exists: true` and any failure at all is caught and
reported as `exists: false` (the deliberately lenient policy). -/
def apiS3Handler (method : Str) (bucket : Option Str) (keyField : Option Str)
    (head : Str → HeadResult) : ApiS3Resp :=
  if method ≠ "POST".data then { status := 405 }
  else
    let key := keyField.getD []
    if key = [] then { status := 400 }
    else match bucket with
    | none => { status := 500 }
    | some _ =>
      match head key with
      | .ok => { status := 200, ex := some true }
      | .err _ => { status := 200, ex := some false }

/-- The `regKey` helper of the registration-status route:
`${prefix}/${encodeURIComponent(email)}/registration.json`. -/
def regKey (pfx : Str) (email : Str) : Str :=
  pfx ++ '/' :: (encodeURIComponent email ++ "/registration.json".data)

/-- Response of the registration-status route. -/
structure RegResp where
  status : Nat
  registered : Option Bool := none
deriving Repr, DecidableEq

/-- The registration-status handler (first variant of
`src/unnamed/part_000`, lines 34-59): GET-only (everything else is 405),
requires `COACH_BUCKET` and a non-empty trimmed `email` query parameter;
`HeadObject` success means registered, a 404 means not registered, and
any other backend failure surfaces as a 500. -/
def regStatusHandler (method : Str) (bucket : Option Str) (pfx : Str)
    (emailQ : Option Str) (head : Str → HeadResult) : RegResp :=
  if method ≠ "GET".data then { status := 405 }
  else match bucket with
  | none => { status := 500 }
  | some _ =>
    let email := jsTrim (emailQ.getD [])
    if email = [] then { status := 400 }
    else match head (regKey pfx email) with
    | .ok => { status := 200, registered := some true }
    | .err c => if c = 404 then { status := 200, registered := some false }
                else { status := 500 }

/-- The replace of `/api/put` (third variant): `[:.]` becomes `-` in the
ISO timestamp, for path-safety. -/
def charMap (c : Char) : Char := if c == ':' || c == '.' then '-' else c

/-- Key resolution of the third `/api/put` variant (`src/api/put.ts`,
lines 229-241): the owner is `encodeURIComponent(teamEmail.toLowerCase().trim())`,
`registration` maps to a fixed per-owner key, `sources` to a
timestamp-suffixed key, and any other kind is rejected (`none`). `isoTs`
is the `Date.prototype.toISOString` rendering of the current instant. -/
def resolveKeyV3 (pfx teamEmail kind isoTs : Str) : Option Str :=
  let teamKey := encodeURIComponent (jsTrim (teamEmail.map toLowerCh))
  if kind = "registration".data then
    some (pfx ++ teamKey ++ "/registration.json".data)
  else if kind = "sources".data then
    some (pfx ++ teamKey ++ "/knowledge/sources-".data ++ isoTs.map charMap ++ ".json".data)
  else none

/-- One slot of the ISO-8601 timestamp layout: a fixed punctuation
character, or `none` for a decimal-digit slot. -/
abbrev IsoSlot := Option Char

/-- Whether a string matches a positional layout of fixed characters and
digit slots. -/
def matchesShape : List IsoSlot → Str → Bool
  | [], [] => true
  | some p :: ps, c :: cs => c == p && matchesShape ps cs
  | none :: ps, c :: cs => digitCh c && matchesShape ps cs
  | _, _ => false

/-- The 24-character layout of `Date.prototype.toISOString` output:
`YYYY-MM-DDTHH:MM:SS.mmmZ`. -/
def isoPattern : List IsoSlot :=
  [none, none, none, none, some '-', none, none, some '-', none, none,
   some 'T', none, none, some ':', none, none, some ':', none, none,
   some '.', none, none, none, some 'Z']

/-- Run-replacement: every maximal run of characters satisfying `bad` is
replaced with a single `-`; the flag records whether the previous input
character was part of a bad run. -/
def replRunsAux (bad : Char → Bool) : Bool → Str → Str
  | _, [] => []
  | prev, c :: rest =>
    if bad c then
      if prev then replRunsAux bad true rest
      else '-' :: replRunsAux bad true rest
    else c :: replRunsAux bad false rest

/-- JS `replace(/bad+/g, '-')` for a single-character class `bad`. -/
def replRuns (bad : Char → Bool) (l : Str) : Str := replRunsAux bad false l

/-- Remove one leading `-`, the `^-` alternative of `replace(/^-|-$/g, '')`. -/
def dropLeadDash : Str → Str
  | [] => []
  | c :: rest => if c = '-' then rest else c :: rest

/-- Remove one trailing `-`, the `-$` alternative of `replace(/^-|-$/g, '')`. -/
def dropTrailDash : Str → Str
  | [] => []
  | [c] => if c = '-' then [] else [c]
  | c :: d :: rest => c :: dropTrailDash (d :: rest)

/-- JS `replace(/^-|-$/g, '')`. -/
def dropEdgeDash (l : Str) : Str := dropTrailDash (dropLeadDash l)

/-- The `safeId` normalizer of `src/api/upload.ts` (third variant, lines
216-218) and of the second registration-status variant: trim, lower-case,
collapse every run outside `[a-z0-9._-]` to `-`, collapse `-` runs, strip
edge dashes. -/
def safeId (s : Str) : Str :=
  dropEdgeDash (replRuns (fun c => c == '-')
    (replRuns (fun c => !lowerSafe c) ((jsTrim s).map toLowerCh)))

/-- No two adjacent dashes occur in the string; `safeId` output satisfies
this after its dash-run collapse. -/
def noAdjDash : Str → Bool
  | c :: d :: rest => !(c == '-' && d == '-') && noAdjDash (d :: rest)
  | _ => true

/-- Decimal rendering of a JS number holding a `Date.now()` value, as a
character list. -/
def natStr (n : Nat) : Str := (Nat.repr n).data

/-- A file descriptor sent to the `/upload` presign route. -/
structure FileDesc where
  name : Str
  ftype : Option Str := none
deriving Repr, DecidableEq

/-- One presigned upload as returned by the `/upload` route. -/
structure Upload where
  name : Str
  key : Str
  url : Str
deriving Repr, DecidableEq

/-- Key built by the active `/api/upload` handler (`src/api/upload.ts`,
line 52): `coach/${sanitizeEmail(email)}/uploads/${Date.now()}-${encodeURIComponent(f.name)}`. -/
def uploadKeyV1 (email : Str) (now : Nat) (name : Str) : Str :=
  "coach/".data ++ sanitizeEmail email ++ "/uploads/".data ++
    natStr now ++ '-' :: encodeURIComponent name

/-- The presign loop of the active `/api/upload` handler
(`src/api/upload.ts`, lines 48-56): one `PresignedUpload` per file, keyed
by `uploadKeyV1` with the `Date.now()` value read on that iteration;
`sign` stands for the backend's `getSignedUrl`. -/
def presignUploadsV1 (sign : Str → Str) (email : Str)
    (files : List FileDesc) (nows : List Nat) : List Upload :=
  (files.zip nows).map fun fn =>
    let key := uploadKeyV1 email fn.2 fn.1.name
    { name := fn.1.name, key := key, url := sign key }

/-- Result of one browser-side existence check inside `checkS3`
(`src/utils/s3.ts`, lines 94-103). -/
inductive ProbeOut where
  | found : ProbeOut
  | notFound : ProbeOut
  | err : ProbeOut
deriving Repr, DecidableEq

/-- The response mapping of the `exists` helper inside `checkS3`:
`res.ok` (2xx) means present, 404 means absent, anything else is an API
error. -/
def existsOut (status : Nat) : ProbeOut :=
  if 200 ≤ status ∧ status < 300 then .found
  else if status = 404 then .notFound
  else .err

/-- Result of the `checkS3` polling loop (`src/utils/s3.ts`). -/
inductive PollResult where
  | success : Str → PollResult
  | failed : Str → PollResult
  | timeout : PollResult
  | error : Str → PollResult
deriving Repr, DecidableEq

/-- The `checkS3` polling loop (`src/utils/s3.ts`, lines 84-117): each
round probes the success key, then the failure key, returning on the
first positive or erroneous probe; `status round key` is the HTTP status
the `/api/s3` call returns for that key on that round, and `fuel` is the
number of rounds the `timeoutMs` budget still admits. -/
def checkS3Model (status : Nat → Str → Nat) (sk fk : Str) : Nat → Nat → PollResult
  | _, 0 => .timeout
  | round, fuel + 1 =>
    match existsOut (status round sk) with
    | .found => .success sk
    | .err => .error ("API error while checking success key".data)
    | .notFound =>
      match existsOut (status round fk) with
      | .found => .failed fk
      | .err => .error ("API error while checking failure key".data)
      | .notFound => checkS3Model status sk fk (round + 1) fuel

/-- Common classification of an existence-probe response, for comparing
the error policies of the two probing call sites. -/
inductive ProbeOutcome where
  | present : ProbeOutcome
  | absent : ProbeOutcome
  | failure : ProbeOutcome
deriving Repr, DecidableEq

/-- Outcome of an `/api/s3` probe response. -/
def s3RespOutcome (r : ApiS3Resp) : ProbeOutcome :=
  if r.status = 200 then (if r.ex = some true then .present else .absent)
  else .failure

/-- Outcome of a registration-status probe response. -/
def regRespOutcome (r : RegResp) : ProbeOutcome :=
  if r.status = 200 then (if r.registered = some true then .present else .absent)
  else .failure

/-! ## Lemmas about `sanitizeEmail` -/

theorem all_head {p : Char → Bool} {c : Char} {l : Str}
    (h : (c :: l).all p = true) : p c = true := by
  rw [List.all_cons] at h
  exact (Bool.and_eq_true _ _ |>.mp h).1

theorem all_tail {p : Char → Bool} {c : Char} {l : Str}
    (h : (c :: l).all p = true) : l.all p = true := by
  rw [List.all_cons] at h
  exact (Bool.and_eq_true _ _ |>.mp h).2

theorem sanCh_upperSafe (c : Char) : upperSafe (sanCh c) = true := by
  unfold sanCh
  split
  · assumption
  · decide

theorem map_sanCh_all_upperSafe (l : Str) : (l.map sanCh).all upperSafe = true := by
  induction l with
  | nil => rfl
  | cons c rest ih => simp [List.all_cons, sanCh_upperSafe, ih]

theorem sanitizeEmail_all_upperSafe (l : Str) :
    (sanitizeEmail l).all upperSafe = true :=
  map_sanCh_all_upperSafe (atRepl l)

theorem upperSafe_ne_at (c : Char) (h : upperSafe c = true) : (c == '@') = false := by
  cases hbe : c == '@' with
  | false => rfl
  | true =>
    have hc := eq_of_beq hbe
    subst hc
    exact absurd h (by decide)

theorem atRepl_cons (c : Char) (rest : Str) :
    atRepl (c :: rest) =
      (if c == '@' then ['_', 'a', 't', '_'] else [c]) ++ atRepl rest := by
  simp [atRepl]

theorem atRepl_of_all_upperSafe (l : Str) (h : l.all upperSafe = true) :
    atRepl l = l := by
  induction l with
  | nil => rfl
  | cons c rest ih =>
    rw [atRepl_cons, ih (all_tail h), upperSafe_ne_at c (all_head h)]
    rfl

theorem map_sanCh_of_all_upperSafe (l : Str) (h : l.all upperSafe = true) :
    l.map sanCh = l := by
  induction l with
  | nil => rfl
  | cons c rest ih =>
    simp [sanCh, all_head h, ih (all_tail h)]

theorem sanitizeEmail_idem (l : Str) :
    sanitizeEmail (sanitizeEmail l) = sanitizeEmail l := by
  rw [show sanitizeEmail (sanitizeEmail l) = (atRepl (sanitizeEmail l)).map sanCh from rfl,
      atRepl_of_all_upperSafe _ (sanitizeEmail_all_upperSafe l),
      map_sanCh_of_all_upperSafe _ (sanitizeEmail_all_upperSafe l)]

/-! ## Lemmas about the key character set -/

theorem all_keySafeUpper_of_upperSafe (l : Str) (h : l.all upperSafe = true) :
    l.all keySafeUpper = true := by
  rw [List.all_eq_true] at h ⊢
  intro c hc
  have := h c hc
  simp [keySafeUpper, this]

theorem all_append_mp {p : Char → Bool} {l1 l2 : Str}
    (h1 : l1.all p = true) (h2 : l2.all p = true) : (l1 ++ l2).all p = true := by
  rw [List.all_append, h1, h2]
  rfl

theorem all_cons_mp {p : Char → Bool} {c : Char} {l : Str}
    (h1 : p c = true) (h2 : l.all p = true) : (c :: l).all p = true := by
  rw [List.all_cons, h1, h2]
  rfl

theorem putKeyV1_all_keySafeUpper (kind email : Str)
    (h : kind.all upperSafe = true) :
    (putKeyV1 kind email).all keySafeUpper = true := by
  have hsan := all_keySafeUpper_of_upperSafe _ (sanitizeEmail_all_upperSafe email)
  have hkind := all_keySafeUpper_of_upperSafe _ h
  exact all_append_mp (all_append_mp (by decide) hsan)
    (all_cons_mp (by decide) (all_append_mp hkind (by decide)))

/-! ## Lemmas about the timestamped sources key -/

theorem charMap_digit (c : Char) (h : digitCh c = true) : charMap c = c := by
  unfold charMap
  cases h1 : c == ':' with
  | true =>
    have := eq_of_beq h1
    subst this
    exact absurd h (by decide)
  | false =>
    cases h2 : c == '.' with
    | true =>
      have := eq_of_beq h2
      subst this
      exact absurd h (by decide)
    | false => simp [h1, h2]

theorem matchesShape_inj (ps : List IsoSlot) :
    ∀ t1 t2 : Str, matchesShape ps t1 = true → matchesShape ps t2 = true →
      t1.map charMap = t2.map charMap → t1 = t2 := by
  induction ps with
  | nil =>
    intro t1 t2 h1 h2 _
    cases t1 with
    | nil =>
      cases t2 with
      | nil => rfl
      | cons c cs => exact absurd h2 (by simp [matchesShape])
    | cons c cs => exact absurd h1 (by simp [matchesShape])
  | cons o ps ih =>
    intro t1 t2 h1 h2 hmap
    cases t1 with
    | nil =>
      cases o <;> exact absurd h1 (by simp [matchesShape])
    | cons c1 cs1 =>
      cases t2 with
      | nil => cases o <;> exact absurd h2 (by simp [matchesShape])
      | cons c2 cs2 =>
        rw [List.map_cons, List.map_cons] at hmap
        have hhead := List.head_eq_of_cons_eq hmap
        have htail := List.tail_eq_of_cons_eq hmap
        cases o with
        | some p =>
          rw [show matchesShape (some p :: ps) (c1 :: cs1) =
                (c1 == p && matchesShape ps cs1) from rfl] at h1
          rw [show matchesShape (some p :: ps) (c2 :: cs2) =
                (c2 == p && matchesShape ps cs2) from rfl] at h2
          have e1 := eq_of_beq (Bool.and_eq_true _ _ |>.mp h1).1
          have e2 := eq_of_beq (Bool.and_eq_true _ _ |>.mp h2).1
          rw [e1, e2,
            ih cs1 cs2 (Bool.and_eq_true _ _ |>.mp h1).2 (Bool.and_eq_true _ _ |>.mp h2).2 htail]
        | none =>
          rw [show matchesShape (none :: ps) (c1 :: cs1) =
                (digitCh c1 && matchesShape ps cs1) from rfl] at h1
          rw [show matchesShape (none :: ps) (c2 :: cs2) =
                (digitCh c2 && matchesShape ps cs2) from rfl] at h2
          have d1 := (Bool.and_eq_true _ _ |>.mp h1).1
          have d2 := (Bool.and_eq_true _ _ |>.mp h2).1
          have : c1 = c2 := by
            rw [← charMap_digit c1 d1, ← charMap_digit c2 d2]
            exact hhead
          rw [this,
            ih cs1 cs2 (Bool.and_eq_true _ _ |>.mp h1).2 (Bool.and_eq_true _ _ |>.mp h2).2 htail]

/-! ## Lemmas about `safeId` -/

theorem all_mono {p q : Char → Bool} (h : ∀ c, p c = true → q c = true)
    (l : Str) (hl : l.all p = true) : l.all q = true := by
  rw [List.all_eq_true] at hl ⊢
  exact fun c hc => h c (hl c hc)

theorem map_id_of_all {p : Char → Bool} {f : Char → Char}
    (h : ∀ c, p c = true → f c = c) :
    ∀ l : Str, l.all p = true → l.map f = l := by
  intro l hl
  induction l with
  | nil => rfl
  | cons c rest ih =>
    rw [List.map_cons, h c (all_head hl), ih (all_tail hl)]

theorem replRunsAux_cons (bad : Char → Bool) (prev : Bool) (c : Char) (rest : Str) :
    replRunsAux bad prev (c :: rest) =
      if bad c then
        (if prev then replRunsAux bad true rest
         else '-' :: replRunsAux bad true rest)
      else c :: replRunsAux bad false rest := rfl

theorem replRunsAux_all (bad : Char → Bool) :
    ∀ (l : Str) (prev : Bool),
      (replRunsAux bad prev l).all (fun c => (c == '-') || !(bad c)) = true := by
  intro l
  induction l with
  | nil => intro prev; rfl
  | cons c rest ih =>
    intro prev
    rw [replRunsAux_cons]
    by_cases hb : bad c = true
    · rw [if_pos hb]
      by_cases hp : prev = true
      · rw [if_pos hp]; exact ih true
      · rw [if_neg hp]; exact all_cons_mp (by cases bad '-' <;> rfl) (ih true)
    · rw [if_neg hb]
      have hbf : bad c = false := by revert hb; cases bad c <;> simp
      refine all_cons_mp ?_ (ih false)
      rw [hbf]
      cases c == '-' <;> rfl

theorem replRunsAux_all_preserve (bad : Char → Bool) {p : Char → Bool}
    (hdash : p '-' = true) :
    ∀ (l : Str) (prev : Bool), l.all p = true →
      (replRunsAux bad prev l).all p = true := by
  intro l
  induction l with
  | nil => intro prev _; rfl
  | cons c rest ih =>
    intro prev hl
    rw [replRunsAux_cons]
    by_cases hb : bad c = true
    · rw [if_pos hb]
      by_cases hp : prev = true
      · rw [if_pos hp]; exact ih true (all_tail hl)
      · rw [if_neg hp]; exact all_cons_mp hdash (ih true (all_tail hl))
    · rw [if_neg hb]
      exact all_cons_mp (all_head hl) (ih false (all_tail hl))

theorem replRunsAux_id (bad : Char → Bool) :
    ∀ (l : Str) (prev : Bool), l.all (fun c => !bad c) = true →
      replRunsAux bad prev l = l := by
  intro l
  induction l with
  | nil => intro prev _; rfl
  | cons c rest ih =>
    intro prev hl
    have hbf : bad c = false := by
      have := all_head hl
      revert this; cases bad c <;> simp
    rw [replRunsAux_cons, if_neg (by rw [hbf]; exact Bool.false_ne_true),
      ih false (all_tail hl)]

theorem replRunsAux_dash_head (l : Str) :
    (replRunsAux (fun c => c == '-') true l).head? ≠ some '-' := by
  induction l with
  | nil => simp [replRunsAux]
  | cons c rest ih =>
    rw [replRunsAux_cons]
    by_cases hc : (c == '-') = true
    · rw [if_pos hc, if_pos rfl]; exact ih
    · rw [if_neg hc]
      simp only [List.head?_cons, ne_eq, Option.some.injEq]
      intro h
      subst h
      exact hc (by decide)

theorem noAdjDash_cons_cons (c d : Char) (rest : Str) :
    noAdjDash (c :: d :: rest) =
      (!(c == '-' && d == '-') && noAdjDash (d :: rest)) := rfl

theorem noAdjDash_tail {c : Char} {l : Str} (h : noAdjDash (c :: l) = true) :
    noAdjDash l = true := by
  cases l with
  | nil => rfl
  | cons d t =>
    rw [noAdjDash_cons_cons] at h
    exact (Bool.and_eq_true _ _ |>.mp h).2

theorem noAdjDash_pair {c d : Char} {rest : Str}
    (h : noAdjDash (c :: d :: rest) = true) : (c == '-' && d == '-') = false := by
  rw [noAdjDash_cons_cons] at h
  have := (Bool.and_eq_true _ _ |>.mp h).1
  revert this; cases c == '-' && d == '-' <;> simp

theorem noAdjDash_cons (c : Char) (l : Str) (h : noAdjDash l = true)
    (hh : ∀ d, l.head? = some d → (c == '-' && d == '-') = false) :
    noAdjDash (c :: l) = true := by
  cases l with
  | nil => rfl
  | cons d t =>
    rw [noAdjDash_cons_cons, hh d rfl, h]
    rfl

theorem noAdjDash_dash_head {rest : Str} (h : noAdjDash ('-' :: rest) = true) :
    rest.head? ≠ some '-' := by
  cases rest with
  | nil => simp
  | cons d t =>
    have hp := noAdjDash_pair h
    simp only [List.head?_cons, ne_eq, Option.some.injEq]
    intro hd
    subst hd
    exact absurd hp (by decide)

theorem noAdjDash_replRuns :
    ∀ (l : Str) (prev : Bool),
      noAdjDash (replRunsAux (fun c => c == '-') prev l) = true := by
  intro l
  induction l with
  | nil => intro prev; rfl
  | cons c rest ih =>
    intro prev
    rw [replRunsAux_cons]
    by_cases hc : (c == '-') = true
    · rw [if_pos hc]
      by_cases hp : prev = true
      · rw [if_pos hp]; exact ih true
      · rw [if_neg hp]
        refine noAdjDash_cons _ _ (ih true) ?_
        intro d hd
        have hne := replRunsAux_dash_head rest
        rw [hd] at hne
        have : (d == '-') = false := by
          cases hdd : d == '-'
          · rfl
          · exact absurd (congrArg some (eq_of_beq hdd)) hne
        rw [this]
        cases c == '-' <;> rfl
    · rw [if_neg hc]
      refine noAdjDash_cons _ _ (ih false) ?_
      intro d _
      have hcf : (c == '-') = false := by revert hc; cases c == '-' <;> simp
      rw [hcf]
      rfl

theorem replRunsAux_dash_id :
    ∀ (l : Str) (prev : Bool), noAdjDash l = true →
      (prev = true → l.head? ≠ some '-') →
      replRunsAux (fun c => c == '-') prev l = l := by
  intro l
  induction l with
  | nil => intro prev _ _; rfl
  | cons c rest ih =>
    intro prev h hhead
    rw [replRunsAux_cons]
    by_cases hc : (c == '-') = true
    · have hcd : c = '-' := eq_of_beq hc
      have hsm : (c :: rest).head? = some '-' := by rw [hcd]; rfl
      have hp : prev = false := by
        cases hpv : prev
        · rfl
        · exact absurd hsm (hhead hpv)
      rw [if_pos hc, hp, if_neg Bool.false_ne_true]
      subst hcd
      rw [ih true (noAdjDash_tail h) (fun _ => noAdjDash_dash_head h)]
    · rw [if_neg hc, ih false (noAdjDash_tail h) (fun hf => absurd hf (by decide))]

theorem dropLeadDash_id {l : Str} (h : l.head? ≠ some '-') : dropLeadDash l = l := by
  cases l with
  | nil => rfl
  | cons c rest =>
    have : c ≠ '-' := fun hc => h (by rw [hc]; rfl)
    rw [show dropLeadDash (c :: rest) = if c = '-' then rest else c :: rest from rfl,
      if_neg this]

theorem dropLeadDash_all {p : Char → Bool} {l : Str} (h : l.all p = true) :
    (dropLeadDash l).all p = true := by
  cases l with
  | nil => rfl
  | cons c rest =>
    rw [show dropLeadDash (c :: rest) = if c = '-' then rest else c :: rest from rfl]
    by_cases hc : c = '-'
    · rw [if_pos hc]; exact all_tail h
    · rw [if_neg hc]; exact h

theorem dropLeadDash_noAdj {l : Str} (h : noAdjDash l = true) :
    noAdjDash (dropLeadDash l) = true := by
  cases l with
  | nil => rfl
  | cons c rest =>
    rw [show dropLeadDash (c :: rest) = if c = '-' then rest else c :: rest from rfl]
    by_cases hc : c = '-'
    · rw [if_pos hc]; exact noAdjDash_tail h
    · rw [if_neg hc]; exact h

theorem dropLeadDash_head {l : Str} (h : noAdjDash l = true) :
    (dropLeadDash l).head? ≠ some '-' := by
  cases l with
  | nil => simp [dropLeadDash]
  | cons c rest =>
    rw [show dropLeadDash (c :: rest) = if c = '-' then rest else c :: rest from rfl]
    by_cases hc : c = '-'
    · rw [if_pos hc]
      subst hc
      exact noAdjDash_dash_head h
    · rw [if_neg hc]
      simp only [List.head?_cons, ne_eq, Option.some.injEq]
      exact hc

theorem dropTrailDash_cons_cons (c d : Char) (rest : Str) :
    dropTrailDash (c :: d :: rest) = c :: dropTrailDash (d :: rest) := rfl

theorem dropTrailDash_singleton (c : Char) :
    dropTrailDash [c] = if c = '-' then [] else [c] := rfl

theorem dropTrailDash_id : ∀ l : Str, l.getLast? ≠ some '-' → dropTrailDash l = l := by
  intro l
  induction l with
  | nil => intro _; rfl
  | cons c rest ih =>
    intro h
    cases rest with
    | nil =>
      have hc : c ≠ '-' := fun hc => h (by rw [hc]; rfl)
      rw [dropTrailDash_singleton, if_neg hc]
    | cons d t =>
      rw [List.getLast?_cons_cons] at h
      rw [dropTrailDash_cons_cons, ih h]

theorem dropTrailDash_all {p : Char → Bool} :
    ∀ l : Str, l.all p = true → (dropTrailDash l).all p = true := by
  intro l
  induction l with
  | nil => intro _; rfl
  | cons c rest ih =>
    intro h
    cases rest with
    | nil =>
      rw [dropTrailDash_singleton]
      by_cases hc : c = '-'
      · rw [if_pos hc]; rfl
      · rw [if_neg hc]; exact h
    | cons d t =>
      rw [dropTrailDash_cons_cons]
      exact all_cons_mp (all_head h) (ih (all_tail h))

theorem dropTrailDash_head :
    ∀ l : Str, dropTrailDash l = [] ∨ (dropTrailDash l).head? = l.head? := by
  intro l
  cases l with
  | nil => exact Or.inl rfl
  | cons c rest =>
    cases rest with
    | nil =>
      rw [dropTrailDash_singleton]
      by_cases hc : c = '-'
      · rw [if_pos hc]; exact Or.inl rfl
      · rw [if_neg hc]; exact Or.inr rfl
    | cons d t => exact Or.inr rfl

theorem dropTrailDash_eq_nil :
    ∀ l : Str, dropTrailDash l = [] → l = [] ∨ l = ['-'] := by
  intro l
  cases l with
  | nil => intro _; exact Or.inl rfl
  | cons c rest =>
    cases rest with
    | nil =>
      rw [dropTrailDash_singleton]
      by_cases hc : c = '-'
      · rw [if_pos hc]
        intro _
        exact Or.inr (by rw [hc])
      · rw [if_neg hc]
        intro h
        exact absurd h (by simp)
    | cons d t =>
      rw [dropTrailDash_cons_cons]
      intro h
      exact absurd h (by simp)

theorem dropTrailDash_noAdj :
    ∀ l : Str, noAdjDash l = true → noAdjDash (dropTrailDash l) = true := by
  intro l
  induction l with
  | nil => intro _; rfl
  | cons c rest ih =>
    intro h
    cases rest with
    | nil =>
      rw [dropTrailDash_singleton]
      by_cases hc : c = '-'
      · rw [if_pos hc]; rfl
      · rw [if_neg hc]; rfl
    | cons d t =>
      rw [dropTrailDash_cons_cons]
      refine noAdjDash_cons _ _ (ih (noAdjDash_tail h)) ?_
      intro e he
      rcases dropTrailDash_head (d :: t) with hnil | hhd
      · rw [hnil] at he
        exact absurd he (by simp)
      · rw [hhd, List.head?_cons] at he
        have hed : e = d := (Option.some.inj he).symm
        subst hed
        exact noAdjDash_pair h

theorem dropTrailDash_getLast :
    ∀ l : Str, noAdjDash l = true → (dropTrailDash l).getLast? ≠ some '-' := by
  intro l
  induction l with
  | nil => intro _; simp [dropTrailDash]
  | cons c rest ih =>
    intro h
    cases rest with
    | nil =>
      rw [dropTrailDash_singleton]
      by_cases hc : c = '-'
      · rw [if_pos hc]; simp
      · rw [if_neg hc, List.getLast?_singleton]
        simp only [ne_eq, Option.some.injEq]
        exact hc
    | cons d t =>
      rw [dropTrailDash_cons_cons]
      cases heq : dropTrailDash (d :: t) with
      | nil =>
        rcases dropTrailDash_eq_nil (d :: t) heq with h1 | h1
        · exact absurd h1 (by simp)
        · have hd : d = '-' := by injection h1
          have hp := noAdjDash_pair h
          rw [hd] at hp
          simp only [List.getLast?_singleton, ne_eq, Option.some.injEq]
          intro hcc
          subst hcc
          exact absurd hp (by decide)
      | cons x xs =>
        rw [List.getLast?_cons_cons, ← heq]
        exact ih (noAdjDash_tail h)

theorem dropEdge_head {l : Str} (h : noAdjDash l = true) :
    (dropEdgeDash l).head? ≠ some '-' := by
  have h1 := dropLeadDash_head h
  show (dropTrailDash (dropLeadDash l)).head? ≠ some '-'
  rcases dropTrailDash_head (dropLeadDash l) with hnil | hhd
  · rw [hnil]; simp
  · rw [hhd]; exact h1

theorem dropEdge_last {l : Str} (h : noAdjDash l = true) :
    (dropEdgeDash l).getLast? ≠ some '-' :=
  dropTrailDash_getLast _ (dropLeadDash_noAdj h)

theorem dropEdge_noAdj {l : Str} (h : noAdjDash l = true) :
    noAdjDash (dropEdgeDash l) = true :=
  dropTrailDash_noAdj _ (dropLeadDash_noAdj h)

theorem dropEdge_all {p : Char → Bool} {l : Str} (h : l.all p = true) :
    (dropEdgeDash l).all p = true :=
  dropTrailDash_all _ (dropLeadDash_all h)

theorem dropEdge_id {l : Str} (hh : l.head? ≠ some '-')
    (hl : l.getLast? ≠ some '-') : dropEdgeDash l = l := by
  show dropTrailDash (dropLeadDash l) = l
  rw [dropLeadDash_id hh]
  exact dropTrailDash_id l hl

theorem lowerSafe_not_ws (c : Char) (h : lowerSafe c = true) : isWs c = false := by
  cases hw : isWs c
  · rfl
  · simp only [isWs, Bool.or_eq_true, decide_eq_true_eq] at hw
    simp only [lowerSafe, Bool.or_eq_true, Bool.and_eq_true, decide_eq_true_eq] at h
    omega

theorem toLowerCh_id (c : Char) (h : lowerSafe c = true) : toLowerCh c = c := by
  have hb : ¬((65 ≤ c.toNat && c.toNat ≤ 90) = true) := by
    simp only [Bool.and_eq_true, decide_eq_true_eq, not_and]
    simp only [lowerSafe, Bool.or_eq_true, Bool.and_eq_true, decide_eq_true_eq] at h
    omega
  unfold toLowerCh
  exact if_neg hb

theorem dropWhile_id {p : Char → Bool} {l : Str}
    (h : l.all (fun c => !p c) = true) : l.dropWhile p = l := by
  cases l with
  | nil => rfl
  | cons c rest =>
    have hp : p c = false := by
      have := all_head h
      revert this; cases p c <;> simp
    rw [List.dropWhile_cons, hp]
    simp

theorem dropEndWhile_id {p : Char → Bool} {l : Str}
    (h : l.all (fun c => !p c) = true) : dropEndWhile p l = l := by
  induction l with
  | nil => rfl
  | cons c rest ih =>
    have hp : p c = false := by
      have := all_head h
      revert this; cases p c <;> simp
    rw [show dropEndWhile p (c :: rest) =
          (if (dropEndWhile p rest = []) && p c then [] else c :: dropEndWhile p rest)
        from rfl,
      ih (all_tail h), hp]
    simp

theorem jsTrim_id {l : Str} (h : l.all (fun c => !isWs c) = true) :
    jsTrim l = l := by
  unfold jsTrim
  rw [dropWhile_id h]
  exact dropEndWhile_id h

theorem safeId_all_lowerSafe (s : Str) : (safeId s).all lowerSafe = true := by
  unfold safeId
  refine dropEdge_all ?_
  refine replRunsAux_all_preserve _ (by decide) _ false ?_
  refine all_mono ?_ _ (replRunsAux_all (fun c => !lowerSafe c) ((jsTrim s).map toLowerCh) false)
  intro c hc
  rcases Bool.or_eq_true _ _ |>.mp hc with h1 | h1
  · rw [eq_of_beq h1]; decide
  · rwa [Bool.not_not] at h1

theorem safeId_noAdj (s : Str) : noAdjDash (safeId s) = true := by
  unfold safeId
  exact dropEdge_noAdj (noAdjDash_replRuns _ false)

theorem safeId_head (s : Str) : (safeId s).head? ≠ some '-' := by
  unfold safeId
  exact dropEdge_head (noAdjDash_replRuns _ false)

theorem safeId_last (s : Str) : (safeId s).getLast? ≠ some '-' := by
  unfold safeId
  exact dropEdge_last (noAdjDash_replRuns _ false)

theorem safeId_fixed {l : Str} (hall : l.all lowerSafe = true)
    (hadj : noAdjDash l = true) (hhd : l.head? ≠ some '-')
    (hlast : l.getLast? ≠ some '-') : safeId l = l := by
  have hws : l.all (fun c => !isWs c) = true := by
    refine all_mono ?_ _ hall
    intro c hc
    rw [lowerSafe_not_ws c hc]
    rfl
  unfold safeId
  rw [jsTrim_id hws, map_id_of_all toLowerCh_id l hall]
  rw [show replRuns (fun c => !lowerSafe c) l = replRunsAux (fun c => !lowerSafe c) false l from rfl,
    replRunsAux_id _ l false (all_mono (fun c hc => by rw [Bool.not_not]; exact hc) _ hall)]
  rw [show replRuns (fun c => c == '-') l = replRunsAux (fun c => c == '-') false l from rfl,
    replRunsAux_dash_id l false hadj (fun hf => absurd hf (by decide))]
  exact dropEdge_id hhd hlast

theorem safeId_idem (s : Str) : safeId (safeId s) = safeId s :=
  safeId_fixed (safeId_all_lowerSafe s) (safeId_noAdj s) (safeId_head s) (safeId_last s)

/-! ## Handler evaluation lemmas -/

theorem apiS3Handler_eval (b k : Str) (hk : k ≠ []) (head : Str → HeadResult) :
    apiS3Handler ("POST".data) (some b) (some k) head =
      match head k with
      | .ok => { status := 200, ex := some true }
      | .err _ => { status := 200, ex := some false } := by
  unfold apiS3Handler
  rw [if_neg (fun hne => hne rfl)]
  show (if k = [] then _ else _) = _
  rw [if_neg hk]
  rfl

theorem regStatusHandler_eval (b pfx e : Str) (he : jsTrim e ≠ [])
    (head : Str → HeadResult) :
    regStatusHandler ("GET".data) (some b) pfx (some e) head =
      match head (regKey pfx (jsTrim e)) with
      | .ok => { status := 200, registered := some true }
      | .err c => if c = 404 then { status := 200, registered := some false }
                  else { status := 500 } := by
  unfold regStatusHandler
  rw [if_neg (fun hne => hne rfl)]
  show (if jsTrim e = [] then _ else _) = _
  rw [if_neg he]
  rfl

theorem putHandlerV1_eval (b : Str) (body : PutBody)
    (hk : jsTrim (jsOrStr body.kind none) ≠ [])
    (he : jsTrim (jsOrStr body.contactEmail body.teamEmail) ≠ []) :
    putHandlerV1 ("POST".data) (some b) body =
      { status := 200,
        key := some (putKeyV1 (jsTrim (jsOrStr body.kind none))
          (jsTrim (jsOrStr body.contactEmail body.teamEmail))),
        writes := [putKeyV1 (jsTrim (jsOrStr body.kind none))
          (jsTrim (jsOrStr body.contactEmail body.teamEmail))] } := by
  unfold putHandlerV1
  rw [if_neg (fun hne => hne rfl)]
  show (if jsTrim (jsOrStr body.kind none) = [] then _ else _) = _
  rw [if_neg hk, if_neg he]

theorem putKeyV1_ne_nil (kind email : Str) : putKeyV1 kind email ≠ [] :=
  fun h => List.noConfusion h

theorem resolveKeyV3_sources (pfx email ts : Str) :
    resolveKeyV3 pfx email ("sources".data) ts =
      some (pfx ++ encodeURIComponent (jsTrim (email.map toLowerCh)) ++
        "/knowledge/sources-".data ++ ts.map charMap ++ ".json".data) := by
  unfold resolveKeyV3
  rw [if_neg (by decide), if_pos rfl]

theorem checkS3Model_succ (status : Nat → Str → Nat) (sk fk : Str)
    (round fuel : Nat) :
    checkS3Model status sk fk round (fuel + 1) =
      match existsOut (status round sk) with
      | .found => .success sk
      | .err => .error ("API error while checking success key".data)
      | .notFound =>
        match existsOut (status round fk) with
        | .found => .failed fk
        | .err => .error ("API error while checking failure key".data)
        | .notFound => checkS3Model status sk fk (round + 1) fuel := rfl

/-! ## Character provenance of the put and upload keys -/

theorem digitCh_digitChar : ∀ m, m < 10 → digitCh (Nat.digitChar m) = true := by
  decide

theorem toDigitsCore_succ (b fuel n : Nat) (ds : List Char) :
    Nat.toDigitsCore b (fuel + 1) n ds =
      (if n / b = 0 then Nat.digitChar (n % b) :: ds
       else Nat.toDigitsCore b fuel (n / b) (Nat.digitChar (n % b) :: ds)) := rfl

theorem toDigitsCore_all_digit :
    ∀ (fuel n : Nat) (ds : List Char), ds.all digitCh = true →
      (Nat.toDigitsCore 10 fuel n ds).all digitCh = true := by
  intro fuel
  induction fuel with
  | zero => intro n ds h; exact h
  | succ m ih =>
    intro n ds h
    rw [toDigitsCore_succ]
    have hd : digitCh (Nat.digitChar (n % 10)) = true :=
      digitCh_digitChar (n % 10) (Nat.mod_lt _ (by decide))
    by_cases hz : n / 10 = 0
    · rw [if_pos hz]
      exact all_cons_mp hd h
    · rw [if_neg hz]
      exact ih (n / 10) _ (all_cons_mp hd h)

theorem natStr_all_digit (n : Nat) : (natStr n).all digitCh = true :=
  toDigitsCore_all_digit (n + 1) n [] rfl

theorem keySafeUpper_of_digit (c : Char) (h : digitCh c = true) :
    keySafeUpper c = true := by
  simp only [digitCh, Bool.and_eq_true, decide_eq_true_eq] at h
  simp only [keySafeUpper, upperSafe, Bool.or_eq_true, Bool.and_eq_true,
    decide_eq_true_eq]
  omega

theorem putKeyV1_chars (kind email : Str) :
    ∀ c, c ∈ putKeyV1 kind email → keySafeUpper c = true ∨ c ∈ kind := by
  intro c hc
  have hlit1 : ∀ x ∈ "coach/".data, keySafeUpper x = true := by decide
  have hlit2 : ∀ x ∈ ".json".data, keySafeUpper x = true := by decide
  have hsan := List.all_eq_true.mp
    (all_keySafeUpper_of_upperSafe _ (sanitizeEmail_all_upperSafe email))
  unfold putKeyV1 at hc
  rcases List.mem_append.mp hc with hc | hc
  · rcases List.mem_append.mp hc with hc | hc
    · exact Or.inl (hlit1 c hc)
    · exact Or.inl (hsan c hc)
  · rcases List.mem_cons.mp hc with rfl | hc
    · exact Or.inl (by decide)
    · rcases List.mem_append.mp hc with hc | hc
      · exact Or.inr hc
      · exact Or.inl (hlit2 c hc)

theorem uploadKeyV1_chars (email name : Str) (now : Nat) :
    ∀ c, c ∈ uploadKeyV1 email now name →
      keySafeUpper c = true ∨ c ∈ encodeURIComponent name := by
  intro c hc
  have hlit1 : ∀ x ∈ "coach/".data, keySafeUpper x = true := by decide
  have hlit2 : ∀ x ∈ "/uploads/".data, keySafeUpper x = true := by decide
  have hsan := List.all_eq_true.mp
    (all_keySafeUpper_of_upperSafe _ (sanitizeEmail_all_upperSafe email))
  have hts := List.all_eq_true.mp (natStr_all_digit now)
  unfold uploadKeyV1 at hc
  rcases List.mem_append.mp hc with hc | hc
  · rcases List.mem_append.mp hc with hc | hc
    · rcases List.mem_append.mp hc with hc | hc
      · rcases List.mem_append.mp hc with hc | hc
        · exact Or.inl (hlit1 c hc)
        · exact Or.inl (hsan c hc)
      · exact Or.inl (hlit2 c hc)
    · exact Or.inl (keySafeUpper_of_digit c (hts c hc))
  · rcases List.mem_cons.mp hc with rfl | hc
    · exact Or.inl (by decide)
    · exact Or.inr hc

/-! ## Claim theorems -/

/-- C1, counterexample: the spec claims every resolver-produced key
contains only lower-case alphanumerics, `.`, `_`, `-` and `/`; the
`/api/put` key for owner `Jane@Example.com` keeps the upper-case letters,
so the claim is false as stated. -/
theorem put_key_not_lowercase_counterexample :
    ((putKeyV1 ("registration".data) ("Jane@Example.com".data)).all specKeySafe) = false := by
  decide

/-- C1 (amended): the resolver sanitizes only the owner segment — for
every owner input, `sanitizeEmail(owner)` contains only characters of
`[a-zA-Z0-9._-]` (spaces, `@`, `/` and all other punctuation are
replaced, but upper-case letters are kept, so the lower-case-only
alphabet fails).  The rest of a key is not covered by that sanitizer:
every character of a `/api/put` key is in `[a-zA-Z0-9._-]` or `/` or
comes from the raw caller-supplied kind, and every character of an
`/api/upload` key is in that set or comes from
`encodeURIComponent(f.name)`, which emits `%` for ordinary file names. -/
theorem sanitize_keys_charset_amended (email kind name : Str) (now : Nat) :
    (sanitizeEmail email).all upperSafe = true ∧
    (∀ c, c ∈ putKeyV1 kind email → keySafeUpper c = true ∨ c ∈ kind) ∧
    (∀ c, c ∈ uploadKeyV1 email now name →
      keySafeUpper c = true ∨ c ∈ encodeURIComponent name) :=
  ⟨sanitizeEmail_all_upperSafe email, putKeyV1_chars kind email,
   uploadKeyV1_chars email name now⟩

/-- C1 witness: the amended guarantee evaluated at a concrete upper-case,
punctuation-bearing owner, the upper-case key character `J`, and the `%`
that `encodeURIComponent` puts into the upload key for `a b.pdf`. -/
theorem sanitize_keys_charset_amended_witness :
    (sanitizeEmail ("Jane Doe@Example com!".data)).all upperSafe = true ∧
    (keySafeUpper 'J' = true ∨ 'J' ∈ ("registration".data : Str)) ∧
    (keySafeUpper '%' = true ∨ '%' ∈ encodeURIComponent ("a b.pdf".data)) :=
  ⟨(sanitize_keys_charset_amended ("Jane Doe@Example com!".data)
      ("registration".data) ("a b.pdf".data) 1).1,
   (sanitize_keys_charset_amended ("Jane Doe@Example com!".data)
      ("registration".data) ("a b.pdf".data) 1).2.1 'J' (by decide),
   (sanitize_keys_charset_amended ("Jane Doe@Example com!".data)
      ("registration".data) ("a b.pdf".data) 1).2.2 '%' (by decide)⟩

/-- C2: resolving the `sources` key for one owner at two instants whose
ISO-8601 renderings differ yields two different storage keys — the
timestamp differentiates them, and only calls in the same
timestamp-resolution instant collide. -/
theorem sources_key_timestamp_distinct (pfx email t1 t2 : Str)
    (h1 : matchesShape isoPattern t1 = true)
    (h2 : matchesShape isoPattern t2 = true) (hne : t1 ≠ t2) :
    resolveKeyV3 pfx email ("sources".data) t1 ≠
      resolveKeyV3 pfx email ("sources".data) t2 := by
  intro heq
  apply hne
  rw [resolveKeyV3_sources, resolveKeyV3_sources] at heq
  have heq2 := Option.some.inj heq
  have heq3 := List.append_cancel_right heq2
  have heq4 := List.append_cancel_left heq3
  exact matchesShape_inj isoPattern t1 t2 h1 h2 heq4

/-- C2 witness: two concrete ISO instants one millisecond apart produce
distinct sources keys. -/
theorem sources_key_timestamp_distinct_witness :
    resolveKeyV3 ("coach/".data) ("A@b.com".data) ("sources".data)
        ("2025-08-28T09:12:33.123Z".data) ≠
      resolveKeyV3 ("coach/".data) ("A@b.com".data) ("sources".data)
        ("2025-08-28T09:12:33.124Z".data) :=
  sources_key_timestamp_distinct _ _ _ _ (by decide) (by decide) (by decide)

/-- C4, counterexample: the registration-status normalizer is
`encodeURIComponent`, and applying it twice differs from applying it
once, so "normalizing twice yields the same result as once" fails for
that endpoint's normalizer. -/
theorem encode_uri_not_idempotent_counterexample :
    encodeURIComponent (encodeURIComponent ("a@b".data)) ≠
      encodeURIComponent ("a@b".data) := by
  decide

/-- C4 (amended): every normalizer is a pure (Lean) function of its
input; `sanitizeEmail` and `safeId` are idempotent, while
`encodeURIComponent`, used by `regKey` and the third `/put` variant, is
deterministic but not idempotent. -/
theorem normalizers_idempotent_amended :
    (∀ e : Str, sanitizeEmail (sanitizeEmail e) = sanitizeEmail e) ∧
    (∀ s : Str, safeId (safeId s) = safeId s) :=
  ⟨sanitizeEmail_idem, safeId_idem⟩

/-- C9: the registration key is deterministic — the third `/put`
variant's resolver ignores the timestamp entirely for kind
`registration`, always producing the same fixed per-owner key with no
timestamp or random component. -/
theorem registration_key_deterministic (pfx email ts1 ts2 : Str) :
    resolveKeyV3 pfx email ("registration".data) ts1 =
      resolveKeyV3 pfx email ("registration".data) ts2 ∧
    resolveKeyV3 pfx email ("registration".data) ts1 =
      some (pfx ++ encodeURIComponent (jsTrim (email.map toLowerCh)) ++
        "/registration.json".data) := by
  constructor
  · rfl
  · unfold resolveKeyV3
    rw [if_pos rfl]

/-- C3, counterexample: a non-404 backend failure (HTTP 500) makes the
`/api/s3` probe answer "absent" while the registration-status probe
answers with an error — the two call sites do not treat non-404 failures
identically, so no single policy is applied uniformly. -/
theorem probe_policy_uniform_counterexample :
    s3RespOutcome (apiS3Handler ("POST".data) (some "b".data) (some "k".data)
        (fun _ => .err 500)) ≠
      regRespOutcome (regStatusHandler ("GET".data) (some "b".data) ("coach".data)
        (some "a@b.com".data) (fun _ => .err 500)) := by
  decide

/-- C3 (amended): the two probing call sites agree on a found object and
on a 404 (both report absence), but diverge on every other backend
failure: `/api/s3` is lenient and still reports absence, while
registration-status surfaces a distinct 500 error. -/
theorem probe_policy_divergence_amended (b k pfx e : Str) (hk : k ≠ [])
    (he : jsTrim e ≠ []) (c : Nat) (hc : c ≠ 404) :
    (s3RespOutcome (apiS3Handler ("POST".data) (some b) (some k)
        (fun _ => .ok)) = .present ∧
     regRespOutcome (regStatusHandler ("GET".data) (some b) pfx (some e)
        (fun _ => .ok)) = .present) ∧
    (s3RespOutcome (apiS3Handler ("POST".data) (some b) (some k)
        (fun _ => .err 404)) = .absent ∧
     regRespOutcome (regStatusHandler ("GET".data) (some b) pfx (some e)
        (fun _ => .err 404)) = .absent) ∧
    (s3RespOutcome (apiS3Handler ("POST".data) (some b) (some k)
        (fun _ => .err c)) = .absent ∧
     regRespOutcome (regStatusHandler ("GET".data) (some b) pfx (some e)
        (fun _ => .err c)) = .failure) := by
  refine ⟨⟨?_, ?_⟩, ⟨?_, ?_⟩, ⟨?_, ?_⟩⟩
  · rw [apiS3Handler_eval b k hk]; rfl
  · rw [regStatusHandler_eval b pfx e he]; rfl
  · rw [apiS3Handler_eval b k hk]; rfl
  · rw [regStatusHandler_eval b pfx e he]; rfl
  · rw [apiS3Handler_eval b k hk]; rfl
  · rw [regStatusHandler_eval b pfx e he]
    show regRespOutcome (if c = 404 then _ else _) = _
    rw [if_neg hc]
    rfl

/-- C3 witness: the amended divergence evaluated at concrete inputs and
error code 500. -/
theorem probe_policy_divergence_amended_witness :
    (s3RespOutcome (apiS3Handler ("POST".data) (some "b".data) (some "k".data)
        (fun _ => .ok)) = .present ∧
     regRespOutcome (regStatusHandler ("GET".data) (some "b".data) ("coach".data)
        (some "a@b.com".data) (fun _ => .ok)) = .present) ∧
    (s3RespOutcome (apiS3Handler ("POST".data) (some "b".data) (some "k".data)
        (fun _ => .err 404)) = .absent ∧
     regRespOutcome (regStatusHandler ("GET".data) (some "b".data) ("coach".data)
        (some "a@b.com".data) (fun _ => .err 404)) = .absent) ∧
    (s3RespOutcome (apiS3Handler ("POST".data) (some "b".data) (some "k".data)
        (fun _ => .err 500)) = .absent ∧
     regRespOutcome (regStatusHandler ("GET".data) (some "b".data) ("coach".data)
        (some "a@b.com".data) (fun _ => .err 500)) = .failure) :=
  probe_policy_divergence_amended ("b".data) ("k".data) ("coach".data)
    ("a@b.com".data) (by decide) (by decide) 500 (by decide)

/-- C5, counterexample: invoking registration-status via POST with a
valid email yields 405 and no `registered` field — the route accepts
only GET, contradicting "405 only when the method is neither GET nor
POST". -/
theorem registration_status_post_counterexample :
    regStatusHandler ("POST".data) (some "b".data) ("coach".data)
        (some "a@b.com".data) (fun _ => .ok) =
      { status := 405, registered := none } := by
  decide

/-- C5 (amended): the registration-status route is GET-only — every
non-GET method (POST included) gets 405; on GET it returns 400 when the
trimmed email is empty, `{registered: true}` when the probe finds the
registration object, `{registered: false}` on a 404, and 500 on any
other backend error. -/
theorem registration_status_methods_amended (b pfx : Str) (emailQ : Option Str)
    (head : Str → HeadResult) (method : Str) :
    (method ≠ "GET".data →
      regStatusHandler method (some b) pfx emailQ head = { status := 405 }) ∧
    (jsTrim (emailQ.getD []) = [] →
      regStatusHandler ("GET".data) (some b) pfx emailQ head = { status := 400 }) ∧
    (jsTrim (emailQ.getD []) ≠ [] →
      (head (regKey pfx (jsTrim (emailQ.getD []))) = .ok →
        regStatusHandler ("GET".data) (some b) pfx emailQ head =
          { status := 200, registered := some true }) ∧
      (head (regKey pfx (jsTrim (emailQ.getD []))) = .err 404 →
        regStatusHandler ("GET".data) (some b) pfx emailQ head =
          { status := 200, registered := some false }) ∧
      (∀ c, c ≠ 404 → head (regKey pfx (jsTrim (emailQ.getD []))) = .err c →
        regStatusHandler ("GET".data) (some b) pfx emailQ head =
          { status := 500 })) := by
  refine ⟨?_, ?_, ?_⟩
  · intro hm
    unfold regStatusHandler
    rw [if_pos hm]
  · intro hemp
    unfold regStatusHandler
    rw [if_neg (fun hne => hne rfl)]
    show (if jsTrim (emailQ.getD []) = [] then _ else _) = _
    rw [if_pos hemp]
  · intro hne
    refine ⟨?_, ?_, ?_⟩
    · intro hok
      unfold regStatusHandler
      rw [if_neg (fun h => h rfl)]
      show (if jsTrim (emailQ.getD []) = [] then _ else _) = _
      rw [if_neg hne, hok]
    · intro h404
      unfold regStatusHandler
      rw [if_neg (fun h => h rfl)]
      show (if jsTrim (emailQ.getD []) = [] then _ else _) = _
      rw [if_neg hne, h404]
      rfl
    · intro c hc herr
      unfold regStatusHandler
      rw [if_neg (fun h => h rfl)]
      show (if jsTrim (emailQ.getD []) = [] then _ else _) = _
      rw [if_neg hne, herr]
      show (if c = 404 then _ else _) = _
      rw [if_neg hc]

/-- C5 witness: each amended branch evaluated at concrete inputs. -/
theorem registration_status_methods_amended_witness :
    regStatusHandler ("POST".data) (some "b".data) ("coach".data)
        (some "x@y.z".data) (fun _ => .ok) = { status := 405 } ∧
    regStatusHandler ("GET".data) (some "b".data) ("coach".data) none
        (fun _ => .ok) = { status := 400 } ∧
    regStatusHandler ("GET".data) (some "b".data) ("coach".data)
        (some "x@y.z".data) (fun _ => .ok) =
      { status := 200, registered := some true } ∧
    regStatusHandler ("GET".data) (some "b".data) ("coach".data)
        (some "x@y.z".data) (fun _ => .err 404) =
      { status := 200, registered := some false } ∧
    regStatusHandler ("GET".data) (some "b".data) ("coach".data)
        (some "x@y.z".data) (fun _ => .err 500) = { status := 500 } :=
  ⟨(registration_status_methods_amended ("b".data) ("coach".data)
      (some "x@y.z".data) (fun _ => .ok) ("POST".data)).1 (by decide),
   (registration_status_methods_amended ("b".data) ("coach".data) none
      (fun _ => .ok) ("GET".data)).2.1 (by decide),
   ((registration_status_methods_amended ("b".data) ("coach".data)
      (some "x@y.z".data) (fun _ => .ok) ("GET".data)).2.2 (by decide)).1 rfl,
   ((registration_status_methods_amended ("b".data) ("coach".data)
      (some "x@y.z".data) (fun _ => .err 404) ("GET".data)).2.2 (by decide)).2.1 rfl,
   ((registration_status_methods_amended ("b".data) ("coach".data)
      (some "x@y.z".data) (fun _ => .err 500) ("GET".data)).2.2 (by decide)).2.2
     500 (by decide) rfl⟩

/-- C6, counterexample: a `/put` request carrying the owner only under
the plain `email` field (with a valid kind) is rejected with 400 — the
handler reads only `contactEmail` and `teamEmail`, so the three aliases
are not accepted interchangeably by `/put`. -/
theorem put_email_alias_counterexample :
    putHandlerV1 ("POST".data) (some "b".data)
        { kind := some "registration".data, email := some "a@b.com".data } =
      { status := 400 } := by
  decide

/-- C6 (amended): `/put` accepts the owner email under `contactEmail` or
`teamEmail` (in that order) and ignores the plain `email` field
entirely; with a non-empty kind and a non-empty email under one of those
two aliases it answers 200 with the resolved key and writes the body
under it, and it answers 400 exactly when the trimmed kind is empty or
neither alias carries a non-empty email. -/
theorem put_email_aliases_amended (b : Str) (body : PutBody) :
    (∀ x : Option Str,
      putHandlerV1 ("POST".data) (some b) { body with email := x } =
        putHandlerV1 ("POST".data) (some b) body) ∧
    (jsTrim (jsOrStr body.kind none) = [] →
      putHandlerV1 ("POST".data) (some b) body = { status := 400 }) ∧
    (jsTrim (jsOrStr body.kind none) ≠ [] →
      jsTrim (jsOrStr body.contactEmail body.teamEmail) = [] →
      putHandlerV1 ("POST".data) (some b) body = { status := 400 }) ∧
    (jsTrim (jsOrStr body.kind none) ≠ [] →
      jsTrim (jsOrStr body.contactEmail body.teamEmail) ≠ [] →
      putHandlerV1 ("POST".data) (some b) body =
        { status := 200,
          key := some (putKeyV1 (jsTrim (jsOrStr body.kind none))
            (jsTrim (jsOrStr body.contactEmail body.teamEmail))),
          writes := [putKeyV1 (jsTrim (jsOrStr body.kind none))
            (jsTrim (jsOrStr body.contactEmail body.teamEmail))] }) := by
  refine ⟨fun x => rfl, ?_, ?_, fun hk he => putHandlerV1_eval b body hk he⟩
  · intro hemp
    unfold putHandlerV1
    rw [if_neg (fun h => h rfl)]
    show (if jsTrim (jsOrStr body.kind none) = [] then _ else _) = _
    rw [if_pos hemp]
  · intro hk hemp
    unfold putHandlerV1
    rw [if_neg (fun h => h rfl)]
    show (if jsTrim (jsOrStr body.kind none) = [] then _ else _) = _
    rw [if_neg hk, if_pos hemp]

/-- C6 witness: the amended behavior evaluated at concrete bodies — the
ignored `email` field, the two 400 branches, and a success through
`contactEmail`. -/
theorem put_email_aliases_amended_witness :
    putHandlerV1 ("POST".data) (some "b".data)
        { kind := some "registration".data, teamEmail := some "a@b.com".data,
          email := some "zzz".data } =
      putHandlerV1 ("POST".data) (some "b".data)
        { kind := some "registration".data, teamEmail := some "a@b.com".data } ∧
    putHandlerV1 ("POST".data) (some "b".data)
        { teamEmail := some "a@b.com".data } = { status := 400 } ∧
    putHandlerV1 ("POST".data) (some "b".data)
        { kind := some "registration".data } = { status := 400 } ∧
    putHandlerV1 ("POST".data) (some "b".data)
        { kind := some "registration".data,
          contactEmail := some "a@b.com".data } =
      { status := 200, key := some ("coach/a_at_b.com/registration.json".data),
        writes := ["coach/a_at_b.com/registration.json".data] } :=
  ⟨(put_email_aliases_amended ("b".data)
      { kind := some "registration".data, teamEmail := some "a@b.com".data }).1
      (some "zzz".data),
   (put_email_aliases_amended ("b".data)
      { teamEmail := some "a@b.com".data }).2.1 (by decide),
   (put_email_aliases_amended ("b".data)
      { kind := some "registration".data }).2.2.1 (by decide) (by decide),
   (put_email_aliases_amended ("b".data)
      { kind := some "registration".data,
        contactEmail := some "a@b.com".data }).2.2.2 (by decide) (by decide)⟩

/-- C7: presigning `a.pdf` and `b.pdf` for any owner yields exactly two
uploads whose keys are the `uploadKeyV1` templates for the two files;
those two keys are distinct whatever the two `Date.now()` readings were,
and each key ends in the sanitized (`encodeURIComponent`-encoded) name
of its file. -/
theorem presign_two_files_distinct (sign : Str → Str) (email : Str) (n1 n2 : Nat) :
    (presignUploadsV1 sign email
        [{ name := "a.pdf".data }, { name := "b.pdf".data }] [n1, n2]).length = 2 ∧
    (presignUploadsV1 sign email
        [{ name := "a.pdf".data }, { name := "b.pdf".data }] [n1, n2]).map Upload.key =
      [uploadKeyV1 email n1 ("a.pdf".data), uploadKeyV1 email n2 ("b.pdf".data)] ∧
    uploadKeyV1 email n1 ("a.pdf".data) ≠ uploadKeyV1 email n2 ("b.pdf".data) ∧
    (encodeURIComponent ("a.pdf".data)).IsSuffix (uploadKeyV1 email n1 ("a.pdf".data)) ∧
    (encodeURIComponent ("b.pdf".data)).IsSuffix (uploadKeyV1 email n2 ("b.pdf".data)) := by
  refine ⟨rfl, rfl, ?_, ?_, ?_⟩
  · intro h
    have hl : ('-' :: encodeURIComponent ("a.pdf".data)).length =
        ('-' :: encodeURIComponent ("b.pdf".data)).length := by decide
    have htl := List.tail_eq_of_cons_eq (List.append_inj' h hl).2
    exact absurd htl (by decide)
  · exact ⟨"coach/".data ++ sanitizeEmail email ++ "/uploads/".data ++
      natStr n1 ++ ['-'], by rw [List.append_assoc]; rfl⟩
  · exact ⟨"coach/".data ++ sanitizeEmail email ++ "/uploads/".data ++
      natStr n2 ++ ['-'], by rw [List.append_assoc]; rfl⟩

/-- C8: round trip between `/put` and the `/api/s3` existence probe over
the modelled store — a key never written probes as `exists: false`, and
after a successful `/put` the key it wrote probes as `exists: true`. -/
theorem put_exists_roundtrip (store : List Str) (b k : Str) (body : PutBody) :
    (k ∉ store → k ≠ [] →
      (apiS3Handler ("POST".data) (some b) (some k) (headOfStore store)).ex =
        some false) ∧
    (jsTrim (jsOrStr body.kind none) ≠ [] →
      jsTrim (jsOrStr body.contactEmail body.teamEmail) ≠ [] →
      (putHandlerV1 ("POST".data) (some b) body).writes =
        [putKeyV1 (jsTrim (jsOrStr body.kind none))
          (jsTrim (jsOrStr body.contactEmail body.teamEmail))] ∧
      (apiS3Handler ("POST".data) (some b)
        (some (putKeyV1 (jsTrim (jsOrStr body.kind none))
          (jsTrim (jsOrStr body.contactEmail body.teamEmail))))
        (headOfStore (putKeyV1 (jsTrim (jsOrStr body.kind none))
          (jsTrim (jsOrStr body.contactEmail body.teamEmail)) :: store))).ex =
        some true) := by
  constructor
  · intro hmem hk
    rw [apiS3Handler_eval b k hk]
    show (match headOfStore store k with
      | HeadResult.ok => ({ status := 200, ex := some true } : ApiS3Resp)
      | HeadResult.err _ => { status := 200, ex := some false }).ex = some false
    unfold headOfStore
    rw [if_neg hmem]
  · intro hk he
    constructor
    · rw [putHandlerV1_eval b body hk he]
    · rw [apiS3Handler_eval b _ (putKeyV1_ne_nil _ _)]
      show (match headOfStore (putKeyV1 _ _ :: store) (putKeyV1 _ _) with
        | HeadResult.ok => ({ status := 200, ex := some true } : ApiS3Resp)
        | HeadResult.err _ => { status := 200, ex := some false }).ex = some true
      unfold headOfStore
      rw [if_pos (List.mem_cons_self _ _)]

/-- C8 witness: the round trip evaluated on the empty store and a
concrete registration body. -/
theorem put_exists_roundtrip_witness :
    (apiS3Handler ("POST".data) (some "b".data) (some "k".data)
        (headOfStore [])).ex = some false ∧
    ((putHandlerV1 ("POST".data) (some "b".data)
        { kind := some "registration".data,
          teamEmail := some "a@b.com".data }).writes =
      ["coach/a_at_b.com/registration.json".data] ∧
     (apiS3Handler ("POST".data) (some "b".data)
        (some ("coach/a_at_b.com/registration.json".data))
        (headOfStore ["coach/a_at_b.com/registration.json".data])).ex =
      some true) :=
  ⟨(put_exists_roundtrip [] ("b".data) ("k".data)
      { kind := some "registration".data, teamEmail := some "a@b.com".data }).1
      (by decide) (by decide),
   (put_exists_roundtrip [] ("b".data) ("k".data)
      { kind := some "registration".data, teamEmail := some "a@b.com".data }).2
      (by decide) (by decide)⟩

/-- C10: in every round `checkS3` probes the success key strictly before
the failure key and returns on the first positive probe — whenever the
success probe reports the object present (in particular when both
sentinel objects exist) the result is `success`, never `failed`; and
when neither key ever appears within the round budget the result is
`timeout`. -/
theorem checkS3_success_priority (status : Nat → Str → Nat) (sk fk : Str) :
    (∀ round fuel, existsOut (status round sk) = .found →
      checkS3Model status sk fk round (fuel + 1) = .success sk) ∧
    ((∀ i, existsOut (status i sk) = .notFound) →
     (∀ i, existsOut (status i fk) = .notFound) →
     ∀ round fuel, checkS3Model status sk fk round fuel = .timeout) := by
  constructor
  · intro round fuel h
    rw [checkS3Model_succ, h]
  · intro hs hf round fuel
    induction fuel generalizing round with
    | zero => rfl
    | succ n ih =>
      rw [checkS3Model_succ, hs round, hf round]
      exact ih (round + 1)

/-- C10 witness: a store where the success probe answers 200 in round
zero returns success immediately, and a store answering 404 forever
times out. -/
theorem checkS3_success_priority_witness :
    checkS3Model (fun _ _ => 200) ("s".data) ("f".data) 0 1 =
      .success ("s".data) ∧
    checkS3Model (fun _ _ => 404) ("s".data) ("f".data) 0 3 = .timeout :=
  ⟨(checkS3_success_priority (fun _ _ => 200) ("s".data) ("f".data)).1 0 0
      (by decide),
   (checkS3_success_priority (fun _ _ => 404) ("s".data) ("f".data)).2
      (fun _ => by decide) (fun _ => by decide) 0 3⟩

/-- C7 witness: the presign property evaluated at a concrete owner and
two concrete clock readings. -/
theorem presign_two_files_distinct_witness :
    (presignUploadsV1 (fun _ => []) ("a@b.com".data)
        [{ name := "a.pdf".data }, { name := "b.pdf".data }] [1, 2]).length = 2 ∧
    (presignUploadsV1 (fun _ => []) ("a@b.com".data)
        [{ name := "a.pdf".data }, { name := "b.pdf".data }] [1, 2]).map Upload.key =
      [uploadKeyV1 ("a@b.com".data) 1 ("a.pdf".data),
       uploadKeyV1 ("a@b.com".data) 2 ("b.pdf".data)] ∧
    uploadKeyV1 ("a@b.com".data) 1 ("a.pdf".data) ≠
      uploadKeyV1 ("a@b.com".data) 2 ("b.pdf".data) ∧
    (encodeURIComponent ("a.pdf".data)).IsSuffix
      (uploadKeyV1 ("a@b.com".data) 1 ("a.pdf".data)) ∧
    (encodeURIComponent ("b.pdf".data)).IsSuffix
      (uploadKeyV1 ("a@b.com".data) 2 ("b.pdf".data)) :=
  presign_two_files_distinct (fun _ => []) ("a@b.com".data) 1 2
